import Mathlib

/-!
Verification of the Grover circuit builder in `src/experimento.py`.

The script builds a Grover search circuit on a 10-qubit register with
qiskit and submits it to a cloud backend.  The circuit-construction part
is pure: `get_initial_state_and_oracle` (lines 26-31) produces the
amplitude vector and the marked indices, and `build_grover_circuit`
(lines 36-73, with `backend=None` so the transpile branch is skipped)
deterministically appends gates to a fresh `QuantumCircuit(10, 10)`.

The shallow embedding below records the sequence of appended circuit
instructions as a list of `GateOp` values, in exactly the order the
Python code calls `qc.initialize`, `qc.x`, `qc.h`, `qc.mcx` and
`qc.measure`.  qiskit raises an error when an instruction names a qubit
index that is out of range of the register; `build_grover_circuit`
models this by checking every appended gate against the register size
and returning an `Except.error` when some gate is out of bounds.

Floating point: the Python code computes the iteration count with
`int(math.pi / 4 * math.sqrt(2**n_qubits / max(1, M)))`; this is
idealized as the natural-number floor of the corresponding real-number
expression (the float result coincides with the real one for all the
concrete inputs considered here, which are far from rounding
boundaries).
-/

set_option maxRecDepth 100000
set_option maxHeartbeats 1000000

namespace Experimento

/-- A single appended circuit instruction, as recorded in the qiskit
circuit's data list.  The amplitude vector handed to `qc.initialize` is
kept abstract in the type parameter `A`, because `build_grover_circuit`
never inspects it, only stores it. -/
inductive GateOp (A : Type) where
  | init (amplitudes : A) (qubits : List ℕ)
  | x (qubit : ℕ)
  | h (qubit : ℕ)
  | mcx (controls : List ℕ) (target : ℕ)
  | measure (qubit : ℕ) (clbit : ℕ)
deriving DecidableEq

/-- `QuantumCircuit(n_qubits, n_qubits)` together with its ordered
instruction list. -/
structure Circuit (A : Type) where
  numQubits : ℕ
  numClbits : ℕ
  gates : List (GateOp A)
deriving DecidableEq

/-- Line 43: `iterations = int(math.pi / 4 * math.sqrt(2**n_qubits / max(1, M)))`
where `M = len(marked_indices)` (line 42).  Truncation of a nonnegative
real is `Nat.floor`. -/
noncomputable def groverIterations (n M : ℕ) : ℕ :=
  Nat.floor (Real.pi / 4 * Real.sqrt ((2 : ℝ) ^ n / ((max 1 M : ℕ) : ℝ)))

/-- Fuel-driven helper computing the number of binary digits of `n`
(0 for `n = 0`); the fuel argument makes the recursion structural, so
the kernel can evaluate it on concrete inputs. -/
def bitLenAux : ℕ → ℕ → ℕ
  | 0, _ => 0
  | fuel + 1, n => if n = 0 then 0 else bitLenAux fuel (n / 2) + 1

/-- The number of binary digits of `n` (0 for `n = 0`): the length of
Python's `format(n, 'b')` is `max 1 (bitLen n)`. -/
def bitLen (n : ℕ) : ℕ := bitLenAux n n

lemma bitLenAux_le (fuel : ℕ) :
    ∀ n k : ℕ, n ≤ fuel → (bitLenAux fuel n ≤ k ↔ n < 2 ^ k) := by
  induction fuel with
  | zero =>
    intro n k hn
    have h0 : n = 0 := by omega
    subst h0
    exact iff_of_true (Nat.zero_le k) (Nat.two_pow_pos k)
  | succ f ih =>
    intro n k hn
    by_cases h0 : n = 0
    · subst h0
      simp only [bitLenAux, if_pos rfl]
      exact iff_of_true (Nat.zero_le k) (Nat.two_pow_pos k)
    · rw [show bitLenAux (f + 1) n = bitLenAux f (n / 2) + 1 by
        simp [bitLenAux, h0]]
      cases k with
      | zero => omega
      | succ j =>
        rw [Nat.add_le_add_iff_right, ih (n / 2) j (by omega), pow_succ]
        omega

lemma bitLen_le {t k : ℕ} : bitLen t ≤ k ↔ t < 2 ^ k :=
  bitLenAux_le t t k le_rfl

lemma lt_bitLen {t k : ℕ} : k < bitLen t ↔ 2 ^ k ≤ t := by
  rw [← Nat.not_le, bitLen_le, Nat.not_lt]

/-- Lines 47-50 (and identically lines 54-56):
`binary = format(target, f'0{n_qubits}b')` is the binary string of
`target`, left-padded with zeros to width `n_qubits`; its length is
`max n_qubits (length of the bare binary string)`, and the bare binary
string of `t` has length `max 1 (bitLen t)` (Python prints `0` as
`"0"`).  The loop `for i, bit in enumerate(binary[::-1])` walks the
string least-significant-bit first, so position `i` holds bit `i` of
`target`, and `qc.x(i)` is appended exactly when that bit is `0`. -/
def xFlips (A : Type) (n t : ℕ) : List (GateOp A) :=
  (List.range (max n (max 1 (bitLen t)))).filterMap
    (fun i => if Nat.testBit t i then none else some (GateOp.x i))

/-- Lines 46-56: the oracle gates appended for one `target` in
`marked_indices`: the conditional X flips, then
`qc.h(n-1); qc.mcx(list(range(n-1)), n-1); qc.h(n-1)`, then the same
conditional X flips again. -/
def oracleBlock (A : Type) (n t : ℕ) : List (GateOp A) :=
  xFlips A n t
    ++ [GateOp.h (n - 1), GateOp.mcx (List.range (n - 1)) (n - 1), GateOp.h (n - 1)]
    ++ xFlips A n t

/-- Lines 58-65, the diffusion operator: `qc.h(range(n))` appends one H
per qubit in ascending order (qiskit broadcasts over the qubit list),
then X on every qubit, the H-mcx-H composite on the last qubit, X on
every qubit, H on every qubit. -/
def diffusionBlock (A : Type) (n : ℕ) : List (GateOp A) :=
  ((List.range n).map GateOp.h)
    ++ ((List.range n).map GateOp.x)
    ++ [GateOp.h (n - 1), GateOp.mcx (List.range (n - 1)) (n - 1), GateOp.h (n - 1)]
    ++ ((List.range n).map GateOp.x)
    ++ ((List.range n).map GateOp.h)

/-- One pass of the loop `for _ in range(iterations)` (lines 45-65): the
oracle gates for every entry of `marked_indices` in input order,
followed by one diffusion operator. -/
def iterBlock (A : Type) (n : ℕ) (marked : List ℕ) : List (GateOp A) :=
  (marked.map (oracleBlock A n)).flatten ++ diffusionBlock A n

/-- Line 67: `qc.measure(range(n_qubits), range(n_qubits))` appends one
measurement per qubit, qubit `i` to classical bit `i`, ascending. -/
def measureBlock (A : Type) (n : ℕ) : List (GateOp A) :=
  (List.range n).map (fun i => GateOp.measure i i)

/-- The complete instruction sequence appended by lines 38-67 when the
iteration count is `iters`: `qc.initialize(amplitudes, range(n_qubits))`
(line 39), then `iters` repetitions of the oracle-plus-diffusion block,
then the measurements. -/
def groverGates (A : Type) (n iters : ℕ) (amplitudes : A) (marked : List ℕ) :
    List (GateOp A) :=
  GateOp.init amplitudes (List.range n)
    :: ((List.replicate iters (iterBlock A n marked)).flatten ++ measureBlock A n)

/-- Whether a gate touches only qubit/clbit indices below the register
size `n`; qiskit rejects an instruction violating this. -/
def gateInBounds (A : Type) (n : ℕ) : GateOp A → Bool
  | GateOp.init _ qs => qs.all (fun q => decide (q < n))
  | GateOp.x q => decide (q < n)
  | GateOp.h q => decide (q < n)
  | GateOp.mcx cs t => cs.all (fun q => decide (q < n)) && decide (t < n)
  | GateOp.measure q c => decide (q < n) && decide (c < n)

/-- Lines 36-73, `build_grover_circuit(amplitudes, marked_indices)` with
`backend=None`: the register size is fixed to `n_qubits = 10` (line 37),
the iteration count is computed from `len(marked_indices)` (lines
42-43), and the gate sequence of lines 39-67 is appended.  qiskit's
rejection of out-of-range qubit indices is modelled as an error result;
when every appended gate is in bounds the completed circuit is
returned. -/
noncomputable def build_grover_circuit (A : Type) (amplitudes : A)
    (marked_indices : List ℕ) : Except String (Circuit A) :=
  if (groverGates A 10 (groverIterations 10 marked_indices.length)
        amplitudes marked_indices).all (gateInBounds A 10) then
    Except.ok
      ⟨10, 10,
        groverGates A 10 (groverIterations 10 marked_indices.length)
          amplitudes marked_indices⟩
  else
    Except.error "circuit instruction out of register range"

/-- Lines 26-31, `get_initial_state_and_oracle()`: `n_qubits = 10`,
`size = 2**n_qubits`, `amplitudes = [1.0 / math.sqrt(size)] * size`,
`marked_indices = list(range(50))`. -/
noncomputable def get_initial_state_and_oracle : List ℝ × ℕ × List ℕ :=
  (List.replicate (2 ^ 10) (1 / Real.sqrt ((2 ^ 10 : ℕ) : ℝ)), 10, List.range 50)

/-- Recognizes the `initialize` instruction. -/
def isInitOp (A : Type) : GateOp A → Bool
  | GateOp.init _ _ => true
  | _ => false

/-- Recognizes single-qubit gate instructions (an X or an H on one
qubit). -/
def isSingleQubitOp (A : Type) : GateOp A → Bool
  | GateOp.x _ => true
  | GateOp.h _ => true
  | _ => false

/-- Recognizes the multi-controlled-NOT instruction. -/
def isMcxOp (A : Type) : GateOp A → Bool
  | GateOp.mcx _ _ => true
  | _ => false

/-- Recognizes a measurement instruction. -/
def isMeasureOp (A : Type) : GateOp A → Bool
  | GateOp.measure _ _ => true
  | _ => false

/-! ### Concrete values of the iteration-count formula -/

lemma sqrt1024_eq : Real.sqrt ((1024 : ℝ)) = 32 := by
  rw [show (1024 : ℝ) = 32 ^ 2 by norm_num, Real.sqrt_sq (by norm_num : (0 : ℝ) ≤ 32)]

lemma iter_10_0 : groverIterations 10 0 = 25 := by
  unfold groverIterations
  rw [show ((max 1 0 : ℕ) : ℝ) = 1 by norm_num,
    show ((2 : ℝ) ^ 10 / 1) = 1024 by norm_num, sqrt1024_eq]
  rw [Nat.floor_eq_iff (by positivity)]
  push_cast
  constructor
  · nlinarith [Real.pi_gt_d6]
  · nlinarith [Real.pi_lt_d6]

lemma iter_10_1 : groverIterations 10 1 = 25 := by
  unfold groverIterations
  rw [show ((max 1 1 : ℕ) : ℝ) = 1 by norm_num,
    show ((2 : ℝ) ^ 10 / 1) = 1024 by norm_num, sqrt1024_eq]
  rw [Nat.floor_eq_iff (by positivity)]
  push_cast
  constructor
  · nlinarith [Real.pi_gt_d6]
  · nlinarith [Real.pi_lt_d6]

lemma iter_10_2 : groverIterations 10 2 = 17 := by
  unfold groverIterations
  rw [show ((max 1 2 : ℕ) : ℝ) = 2 by norm_num,
    show ((2 : ℝ) ^ 10 / 2) = 512 by norm_num]
  have h1 : Real.sqrt 512 < 22.63 := by
    rw [Real.sqrt_lt' (by norm_num)]
    norm_num
  have h2 : (22.6 : ℝ) < Real.sqrt 512 := by
    rw [Real.lt_sqrt (by norm_num)]
    norm_num
  rw [Nat.floor_eq_iff (by positivity)]
  push_cast
  constructor
  · nlinarith [Real.pi_gt_d6]
  · nlinarith [Real.pi_lt_d6]

lemma iter_10_632 : groverIterations 10 632 = 0 := by
  unfold groverIterations
  rw [show ((max 1 632 : ℕ) : ℝ) = 632 by norm_num, Nat.floor_eq_zero]
  have h1 : Real.sqrt ((2 : ℝ) ^ 10 / 632) < 1.27295 := by
    rw [Real.sqrt_lt' (by norm_num)]
    norm_num
  nlinarith [Real.pi_lt_d6, Real.pi_gt_three,
    Real.sqrt_nonneg ((2 : ℝ) ^ 10 / 632)]

lemma one_le_iter_zero (n : ℕ) (hn : 1 ≤ n) : 1 ≤ groverIterations n 0 := by
  unfold groverIterations
  rw [show ((max 1 0 : ℕ) : ℝ) = 1 by norm_num, div_one]
  apply Nat.le_floor
  push_cast
  have h2 : Real.sqrt 2 ≤ Real.sqrt ((2 : ℝ) ^ n) := by
    apply Real.sqrt_le_sqrt
    calc (2 : ℝ) = 2 ^ 1 := (pow_one 2).symm
    _ ≤ 2 ^ n := by
      apply pow_le_pow_right₀ (by norm_num) hn
  have h3 : (1.41 : ℝ) < Real.sqrt 2 := by
    rw [Real.lt_sqrt (by norm_num)]
    norm_num
  nlinarith [Real.pi_gt_three, lt_of_lt_of_le h3 h2]

/-! ### Structural facts about the gate blocks -/

lemma mem_xFlips {A : Type} {n t : ℕ} {g : GateOp A} (hg : g ∈ xFlips A n t) :
    ∃ i, i < max n (max 1 (bitLen t)) ∧ Nat.testBit t i = false ∧ g = GateOp.x i := by
  simp only [xFlips, List.mem_filterMap, List.mem_range] at hg
  obtain ⟨i, hi, hfi⟩ := hg
  by_cases hb : Nat.testBit t i = true
  · simp [hb] at hfi
  · rw [Bool.not_eq_true] at hb
    rw [hb] at hfi
    simp only [Bool.false_eq_true, if_false, Option.some_inj] at hfi
    exact ⟨i, hi, hb, hfi.symm⟩

lemma shape_of_mem_oracle {A : Type} {n t : ℕ} {g : GateOp A}
    (hg : g ∈ oracleBlock A n t) :
    isInitOp A g = false ∧ isMeasureOp A g = false := by
  simp only [oracleBlock, List.mem_append, List.mem_cons, List.not_mem_nil,
    or_false] at hg
  rcases hg with (h | h) | h
  · obtain ⟨i, _, _, rfl⟩ := mem_xFlips h
    exact ⟨rfl, rfl⟩
  · rcases h with rfl | rfl | rfl
    · exact ⟨rfl, rfl⟩
    · exact ⟨rfl, rfl⟩
    · exact ⟨rfl, rfl⟩
  · obtain ⟨i, _, _, rfl⟩ := mem_xFlips h
    exact ⟨rfl, rfl⟩

lemma shape_of_mem_diffusion {A : Type} {n : ℕ} {g : GateOp A}
    (hg : g ∈ diffusionBlock A n) :
    isInitOp A g = false ∧ isMeasureOp A g = false := by
  simp only [diffusionBlock, List.mem_append, List.mem_cons, List.not_mem_nil,
    or_false, List.mem_map, List.mem_range] at hg
  rcases hg with (((h | h) | h) | h) | h
  · obtain ⟨i, _, rfl⟩ := h
    exact ⟨rfl, rfl⟩
  · obtain ⟨i, _, rfl⟩ := h
    exact ⟨rfl, rfl⟩
  · rcases h with rfl | rfl | rfl
    · exact ⟨rfl, rfl⟩
    · exact ⟨rfl, rfl⟩
    · exact ⟨rfl, rfl⟩
  · obtain ⟨i, _, rfl⟩ := h
    exact ⟨rfl, rfl⟩
  · obtain ⟨i, _, rfl⟩ := h
    exact ⟨rfl, rfl⟩

lemma shape_of_mem_iter {A : Type} {n : ℕ} {m : List ℕ} {g : GateOp A}
    (hg : g ∈ iterBlock A n m) :
    isInitOp A g = false ∧ isMeasureOp A g = false := by
  rcases List.mem_append.mp hg with h | h
  · obtain ⟨l, hl, hgl⟩ := List.mem_flatten.mp h
    obtain ⟨t, _, rfl⟩ := List.mem_map.mp hl
    exact shape_of_mem_oracle hgl
  · exact shape_of_mem_diffusion h

lemma countP_init_body {A : Type} (n iters : ℕ) (m : List ℕ) :
    ((List.replicate iters (iterBlock A n m)).flatten
      ++ measureBlock A n).countP (isInitOp A) = 0 := by
  rw [List.countP_eq_zero]
  intro g hg
  rcases List.mem_append.mp hg with h | h
  · obtain ⟨l, hl, hgl⟩ := List.mem_flatten.mp h
    rw [List.eq_of_mem_replicate hl] at hgl
    simp [(shape_of_mem_iter hgl).1]
  · obtain ⟨i, _, rfl⟩ := List.mem_map.mp h
    simp [isInitOp]

lemma countP_measure_body {A : Type} (n iters : ℕ) (a : A) (m : List ℕ) :
    (GateOp.init a (List.range n)
      :: (List.replicate iters (iterBlock A n m)).flatten).countP (isMeasureOp A) = 0 := by
  rw [List.countP_eq_zero]
  intro g hg
  rcases List.mem_cons.mp hg with rfl | h
  · simp [isMeasureOp]
  · obtain ⟨l, hl, hgl⟩ := List.mem_flatten.mp h
    rw [List.eq_of_mem_replicate hl] at hgl
    simp [(shape_of_mem_iter hgl).2]

lemma countP_mcx_xFlips {A : Type} (n t : ℕ) :
    (xFlips A n t).countP (isMcxOp A) = 0 := by
  rw [List.countP_eq_zero]
  intro g hg
  obtain ⟨i, _, _, rfl⟩ := mem_xFlips hg
  simp [isMcxOp]

lemma countP_mcx_oracle {A : Type} (n t : ℕ) :
    (oracleBlock A n t).countP (isMcxOp A) = 1 := by
  simp [oracleBlock, List.countP_append, countP_mcx_xFlips, List.countP_cons, isMcxOp]

lemma countP_mcx_range_map {A : Type} (n : ℕ) (f : ℕ → GateOp A)
    (hf : ∀ i, isMcxOp A (f i) = false) :
    ((List.range n).map f).countP (isMcxOp A) = 0 := by
  rw [List.countP_eq_zero]
  intro g hg
  obtain ⟨i, _, rfl⟩ := List.mem_map.mp hg
  simp [hf i]

lemma countP_mcx_diffusion {A : Type} (n : ℕ) :
    (diffusionBlock A n).countP (isMcxOp A) = 1 := by
  simp [diffusionBlock, List.countP_append, List.countP_cons, isMcxOp,
    countP_mcx_range_map n GateOp.h (fun _ => rfl),
    countP_mcx_range_map n GateOp.x (fun _ => rfl)]

lemma countP_mcx_iter {A : Type} (n : ℕ) (m : List ℕ) :
    (iterBlock A n m).countP (isMcxOp A) = m.length + 1 := by
  rw [iterBlock, List.countP_append, List.countP_flatten, countP_mcx_diffusion,
    List.map_map]
  congr 1
  have hconst : (List.countP (isMcxOp A) ∘ oracleBlock A n) = fun _ => 1 :=
    funext fun t => countP_mcx_oracle n t
  rw [hconst]
  induction m with
  | nil => rfl
  | cons a l ih => simp [ih, Nat.add_comm]

lemma countP_mcx_gates {A : Type} (n iters : ℕ) (a : A) (m : List ℕ) :
    (groverGates A n iters a m).countP (isMcxOp A) = iters * (m.length + 1) := by
  have h0 : isMcxOp A (GateOp.init a (List.range n)) = false := rfl
  rw [groverGates, List.countP_cons, h0]
  simp only [Bool.false_eq_true, if_false, add_zero]
  rw [List.countP_append, List.countP_flatten, List.map_replicate, countP_mcx_iter,
    List.sum_replicate, smul_eq_mul]
  have hmeas : ((List.range n).map fun i => GateOp.measure i i).countP (isMcxOp A) = 0 :=
    countP_mcx_range_map n (fun i => GateOp.measure i i) (fun _ => rfl)
  rw [measureBlock, hmeas, add_zero]

lemma flatten_replicate_perm {B : Type} {b₁ b₂ : List B} (h : b₁.Perm b₂) :
    ∀ k : ℕ, ((List.replicate k b₁).flatten).Perm ((List.replicate k b₂).flatten)
  | 0 => List.Perm.refl _
  | k + 1 => by
    simp only [List.replicate_succ, List.flatten_cons]
    exact h.append (flatten_replicate_perm h k)

lemma filterMap_if_eq {B : Type} (p : ℕ → Bool) (f : ℕ → B) :
    ∀ l : List ℕ, (l.filterMap fun i => if p i then none else some (f i))
      = (l.filter fun i => !(p i)).map f
  | [] => rfl
  | a :: l => by
    by_cases hp : p a = true
    · simp [List.filterMap_cons, List.filter_cons, hp, filterMap_if_eq p f l]
    · simp [List.filterMap_cons, List.filter_cons, hp, filterMap_if_eq p f l]

lemma xFlips_width {n t : ℕ} (hn : 1 ≤ n) (ht : t < 2 ^ n) :
    max n (max 1 (bitLen t)) = n :=
  max_eq_left (max_le hn (bitLen_le.mpr ht))

/-! ### Bounds checking for a marked index in `[2^10, 2^11)` -/

lemma bitLen_eq_eleven {m : ℕ} (h₁ : 2 ^ 10 ≤ m) (h₂ : m < 2 ^ 11) :
    bitLen m = 11 :=
  le_antisymm (bitLen_le.mpr h₂) (lt_bitLen.mpr h₁)

lemma testBit_ten {m : ℕ} (h₁ : 2 ^ 10 ≤ m) (h₂ : m < 2 ^ 11) :
    Nat.testBit m 10 = true := by
  have e1 : (2 : ℕ) ^ 10 = 1024 := by norm_num
  have e2 : (2 : ℕ) ^ 11 = 2048 := by norm_num
  rw [e1] at h₁
  rw [e2] at h₂
  have hd : m / 2 ^ 10 = 1 := by
    rw [e1]
    omega
  rw [Nat.testBit_to_div_mod, hd]
  rfl

lemma oracle_inBounds_single {A : Type} {m : ℕ} (hsize : bitLen m = 11)
    (hbit10 : Nat.testBit m 10 = true) {g : GateOp A}
    (hg : g ∈ oracleBlock A 10 m) : gateInBounds A 10 g = true := by
  have hx : ∀ gx : GateOp A, gx ∈ xFlips A 10 m → gateInBounds A 10 gx = true := by
    intro gx hgx
    obtain ⟨i, hi, hbit, rfl⟩ := mem_xFlips hgx
    rw [hsize] at hi
    norm_num at hi
    have hne : i ≠ 10 := by
      intro heq
      rw [heq, hbit10] at hbit
      exact absurd hbit (by simp)
    have hlt : i < 10 := by omega
    simp [gateInBounds, hlt]
  simp only [oracleBlock, List.mem_append, List.mem_cons, List.not_mem_nil,
    or_false] at hg
  rcases hg with (h | h) | h
  · exact hx g h
  · rcases h with rfl | rfl | rfl
    · rfl
    · rfl
    · rfl
  · exact hx g h

lemma gates_inBounds_single {A : Type} (a : A) {m : ℕ} (h₁ : 2 ^ 10 ≤ m)
    (h₂ : m < 2 ^ 11) (iters : ℕ) :
    (groverGates A 10 iters a [m]).all (gateInBounds A 10) = true := by
  have hsize : bitLen m = 11 := bitLen_eq_eleven h₁ h₂
  have hbit10 : Nat.testBit m 10 = true := testBit_ten h₁ h₂
  rw [List.all_eq_true]
  intro g hg
  rcases List.mem_cons.mp hg with rfl | hg
  · rfl
  rcases List.mem_append.mp hg with hg | hg
  · obtain ⟨l, hl, hgl⟩ := List.mem_flatten.mp hg
    rw [List.eq_of_mem_replicate hl] at hgl
    rcases List.mem_append.mp hgl with hgl | hgl
    · obtain ⟨l2, hl2, hgl2⟩ := List.mem_flatten.mp hgl
      obtain ⟨t, ht, rfl⟩ := List.mem_map.mp hl2
      have htm : t = m := by simpa using ht
      rw [htm] at hgl2
      exact oracle_inBounds_single hsize hbit10 hgl2
    · -- diffusion block at register size 10: a fixed in-bounds gate list
      have hdiff : ∀ gd : GateOp A, gd ∈ diffusionBlock A 10 →
          gateInBounds A 10 gd = true := by
        intro gd hgd
        simp only [diffusionBlock, List.mem_append, List.mem_cons,
          List.not_mem_nil, or_false, List.mem_map, List.mem_range] at hgd
        rcases hgd with (((h | h) | h) | h) | h
        · obtain ⟨i, hi, rfl⟩ := h
          simp [gateInBounds, hi]
        · obtain ⟨i, hi, rfl⟩ := h
          simp [gateInBounds, hi]
        · rcases h with rfl | rfl | rfl
          · rfl
          · rfl
          · rfl
        · obtain ⟨i, hi, rfl⟩ := h
          simp [gateInBounds, hi]
        · obtain ⟨i, hi, rfl⟩ := h
          simp [gateInBounds, hi]
      exact hdiff g hgl
  · obtain ⟨i, hi, rfl⟩ := List.mem_map.mp hg
    rw [List.mem_range] at hi
    simp [gateInBounds, hi]

/-! ### Claims -/

/-- C1, counterexample: with the 10-qubit register of the source and the
non-empty marked set `{0, ..., 631}` (so `0 < |M| = 632 ≤ 2^10 - 1`),
the iteration count computed by the builder is `0`, not the claimed
value `max 1 (floor (pi/4 * sqrt (2^n / |M|))) = 1`: line 43 applies no
lower clamp, and `pi/4 * sqrt (1024 / 632) < 1`. -/
theorem c1_counterexample :
    0 < (632 : ℕ) ∧ (632 : ℕ) ≤ 2 ^ 10 - 1 ∧ groverIterations 10 632 = 0 :=
  ⟨by norm_num, by norm_num, iter_10_632⟩

/-- C1, amended: for every register size `n` and every non-empty marked
set of size `M`, the iteration count computed by the builder equals
`floor (pi/4 * sqrt (2^n / M))` with NO clamping to be at least 1 (it is
`0` whenever that floor is `0`). -/
theorem c1_iteration_count_unclamped (n M : ℕ) (h : 0 < M) :
    groverIterations n M
      = Nat.floor (Real.pi / 4 * Real.sqrt ((2 : ℝ) ^ n / (M : ℝ))) := by
  unfold groverIterations
  rw [max_eq_right h]

/-- C1, witness: the amended statement instantiated at the source's own
input, `n = 10` and `M = 50`. -/
theorem c1_iteration_count_unclamped_witness :
    0 < 50 ∧ groverIterations 10 50
      = Nat.floor (Real.pi / 4 * Real.sqrt ((2 : ℝ) ^ 10 / ((50 : ℕ) : ℝ))) :=
  ⟨by norm_num, c1_iteration_count_unclamped 10 50 (by norm_num)⟩

/-- C2, counterexample: building with an empty marked set does NOT yield
iteration count 0: `max(1, 0) = 1` in line 43 makes the count
`floor (pi/4 * sqrt 1024) = 25`, and the resulting gate list contains an
X gate (from the diffusion operators), so the circuit is not just the
initial superposition step plus measurements. -/
theorem c2_counterexample :
    groverIterations 10 (List.length ([] : List ℕ)) = 25
      ∧ (GateOp.x 0 : GateOp Unit) ∈ groverGates Unit 10 25 () [] :=
  ⟨iter_10_0, by decide⟩

/-- C2, amended: for every `n ≥ 1`, building with an empty marked set
yields iteration count `floor (pi/4 * sqrt (2^n)) ≥ 1` (25 for the
source's `n = 10`), and the circuit consists of the initial step, that
many diffusion operators (and no oracle gates, since there is no marked
target), followed by the measurements. -/
theorem c2_empty_marked_runs_diffusion (A : Type) (n : ℕ) (a : A) (hn : 1 ≤ n) :
    groverGates A n (groverIterations n (List.length ([] : List ℕ))) a []
      = GateOp.init a (List.range n)
          :: ((List.replicate (groverIterations n 0) (diffusionBlock A n)).flatten
              ++ measureBlock A n)
      ∧ 1 ≤ groverIterations n 0 :=
  ⟨rfl, one_le_iter_zero n hn⟩

/-- C2, witness: the amended statement at the source's register size
`n = 10`. -/
theorem c2_empty_marked_runs_diffusion_witness :
    1 ≤ 10
      ∧ (groverGates Unit 10 (groverIterations 10 (List.length ([] : List ℕ))) () []
          = GateOp.init () (List.range 10)
              :: ((List.replicate (groverIterations 10 0) (diffusionBlock Unit 10)).flatten
                  ++ measureBlock Unit 10)
          ∧ 1 ≤ groverIterations 10 0) :=
  ⟨by norm_num, c2_empty_marked_runs_diffusion Unit 10 () (by norm_num)⟩

/-- C3, counterexample: the marked index 1024 lies outside `[0, 2^10)`,
yet the build does not fail at all: no validation is performed, and a
complete circuit is returned (the oracle X flips are placed by the
zero bits of the 11-character binary string of 1024, all of which name
in-range qubits). -/
theorem c3_counterexample :
    2 ^ 10 ≤ 1024
      ∧ build_grover_circuit Unit () [1024]
          = Except.ok ⟨10, 10, groverGates Unit 10 25 () [1024]⟩ := by
  refine ⟨by norm_num, ?_⟩
  unfold build_grover_circuit
  rw [show ([1024] : List ℕ).length = 1 from rfl, iter_10_1,
    if_pos (by decide :
      (groverGates Unit 10 25 () [1024]).all (gateInBounds Unit 10) = true)]

/-- C3, amended: the builder performs no range validation.  For any
marked index `m` with `2^10 ≤ m < 2^11` the build succeeds and returns
the complete circuit instead of failing with an out-of-range error (the
binary string of `m` has 11 characters whose top bit is 1, so every
appended gate still names an in-range qubit). -/
theorem c3_out_of_range_is_accepted (A : Type) (a : A) {m : ℕ}
    (h₁ : 2 ^ 10 ≤ m) (h₂ : m < 2 ^ 11) :
    build_grover_circuit A a [m]
      = Except.ok
          ⟨10, 10, groverGates A 10 (groverIterations 10 (List.length [m])) a [m]⟩ := by
  unfold build_grover_circuit
  rw [if_pos (gates_inBounds_single a h₁ h₂ _)]

/-- C3, witness: the amended statement at the concrete out-of-range
marked index 2000. -/
theorem c3_out_of_range_is_accepted_witness :
    2 ^ 10 ≤ 2000 ∧ 2000 < 2 ^ 11
      ∧ build_grover_circuit Unit () [2000]
          = Except.ok
              ⟨10, 10,
                groverGates Unit 10 (groverIterations 10 (List.length [2000])) () [2000]⟩ :=
  ⟨by norm_num, by norm_num, c3_out_of_range_is_accepted Unit () (by norm_num) (by norm_num)⟩

/-- C4, counterexample: the builder does not canonicalize the marked
indices: the inputs `[0, 1]` and `[1, 0]` contain the same set of values
in different orders, yet the produced circuits differ (the oracle blocks
are emitted in input order, so the gate right after the initialize step
is an X on qubit 0 in one circuit and an X on qubit 1 in the other). -/
theorem c4_counterexample :
    build_grover_circuit Unit () [0, 1] ≠ build_grover_circuit Unit () [1, 0] := by
  unfold build_grover_circuit
  rw [show ([0, 1] : List ℕ).length = 2 from rfl,
    show ([1, 0] : List ℕ).length = 2 from rfl, iter_10_2,
    if_pos (by decide :
      (groverGates Unit 10 17 () [0, 1]).all (gateInBounds Unit 10) = true),
    if_pos (by decide :
      (groverGates Unit 10 17 () [1, 0]).all (gateInBounds Unit 10) = true)]
  intro h
  have h2 := congrArg Circuit.gates (Except.ok.inj h)
  exact absurd h2 (by decide)

/-- C4, amended: two marked-index sequences that are permutations of one
another yield the same iteration count and gate sequences that are
permutations of each other (same gates with the same multiplicities);
byte-identical gate sequences are only guaranteed for identical input
order, since the builder processes the marked list as given and performs
no canonicalization. -/
theorem c4_permuted_input_permutes_gates (A : Type) (n iters : ℕ) (a : A)
    (m₁ m₂ : List ℕ) (h : m₁.Perm m₂) :
    groverIterations n m₁.length = groverIterations n m₂.length
      ∧ (groverGates A n iters a m₁).Perm (groverGates A n iters a m₂) := by
  constructor
  · rw [h.length_eq]
  · have hb : (iterBlock A n m₁).Perm (iterBlock A n m₂) :=
      ((h.map (oracleBlock A n)).flatten).append_right (diffusionBlock A n)
    exact ((flatten_replicate_perm hb iters).append_right (measureBlock A n)).cons _

/-- C4, witness: the amended statement at the permuted pair `[0, 1]`
and `[1, 0]`. -/
theorem c4_permuted_input_permutes_gates_witness :
    ([0, 1] : List ℕ).Perm [1, 0]
      ∧ (groverIterations 10 (List.length ([0, 1] : List ℕ))
            = groverIterations 10 (List.length ([1, 0] : List ℕ))
          ∧ (groverGates Unit 10 1 () [0, 1]).Perm (groverGates Unit 10 1 () [1, 0])) :=
  ⟨by decide, c4_permuted_input_permutes_gates Unit 10 1 () [0, 1] [1, 0] (by decide)⟩

/-- C5, counterexample: the first operation of the built circuit is not
a sequence of `n` single-qubit Hadamard-equivalent operations: it is ONE
`initialize` instruction acting on all 10 qubits at once (line 39), and
that instruction is not a single-qubit operation. -/
theorem c5_counterexample :
    (groverGates Unit 10 (groverIterations 10 1) () [0]).head?
        = some (GateOp.init () (List.range 10))
      ∧ isSingleQubitOp Unit (GateOp.init () (List.range 10)) = false :=
  ⟨rfl, rfl⟩

/-- C5, amended: the initial step is a single `initialize` instruction
carrying the caller's amplitude vector and acting on all `n` qubits; it
is the first operation of the circuit and the only `initialize`
instruction in it (so it does precede every oracle and diffusion
gate). -/
theorem c5_single_initialize_first (A : Type) (n iters : ℕ) (a : A) (m : List ℕ) :
    (groverGates A n iters a m).head? = some (GateOp.init a (List.range n))
      ∧ (groverGates A n iters a m).countP (isInitOp A) = 1 := by
  refine ⟨rfl, ?_⟩
  rw [groverGates, List.countP_cons, countP_init_body]
  simp [isInitOp]

/-- C6: for every register size `n ≥ 1` and every in-range target
`t < 2^n`, the oracle gates appended for `t` are exactly: one X gate on
every qubit whose bit in the `n`-bit representation of `t` is 0, then H
on the last qubit, a multi-controlled NOT with all other qubits as
controls and the last qubit as target, H on the last qubit again, and
then the same X gates a second time. -/
theorem c6_oracle_block_shape (A : Type) (n t : ℕ) (hn : 1 ≤ n) (ht : t < 2 ^ n) :
    oracleBlock A n t
      = ((List.range n).filter (fun i => !(Nat.testBit t i))).map GateOp.x
          ++ [GateOp.h (n - 1), GateOp.mcx (List.range (n - 1)) (n - 1),
              GateOp.h (n - 1)]
          ++ ((List.range n).filter (fun i => !(Nat.testBit t i))).map GateOp.x := by
  have hx : xFlips A n t
      = ((List.range n).filter (fun i => !(Nat.testBit t i))).map GateOp.x := by
    rw [xFlips, xFlips_width hn ht, filterMap_if_eq]
  rw [oracleBlock, hx]

/-- C6, witness: the oracle block shape at the spec's concrete scenario
`n = 2`, target `3`. -/
theorem c6_oracle_block_shape_witness :
    1 ≤ 2 ∧ 3 < 2 ^ 2
      ∧ oracleBlock Unit 2 3
          = ((List.range 2).filter (fun i => !(Nat.testBit 3 i))).map GateOp.x
              ++ [GateOp.h (2 - 1), GateOp.mcx (List.range (2 - 1)) (2 - 1),
                  GateOp.h (2 - 1)]
              ++ ((List.range 2).filter (fun i => !(Nat.testBit 3 i))).map GateOp.x :=
  ⟨by norm_num, by norm_num, c6_oracle_block_shape Unit 2 3 (by norm_num) (by norm_num)⟩

/-- C7: each iteration consists of the oracle blocks of all marked
targets followed by exactly one diffusion operator, whose gate sequence
is H on every qubit, X on every qubit, the H-mcx-H composite on the last
qubit with all other qubits as controls, X on every qubit, H on every
qubit, in that order; the count of multi-controlled-NOT gates in the
whole circuit is exactly `iterations * (|marked| + 1)` (one per oracle
block plus exactly one per iteration for the diffusion operator). -/
theorem c7_diffusion_once_per_iteration (A : Type) (n iters : ℕ) (a : A)
    (m : List ℕ) :
    groverGates A n iters a m
      = GateOp.init a (List.range n)
          :: ((List.replicate iters
                ((m.map (oracleBlock A n)).flatten
                  ++ (((List.range n).map GateOp.h) ++ ((List.range n).map GateOp.x)
                      ++ [GateOp.h (n - 1), GateOp.mcx (List.range (n - 1)) (n - 1),
                          GateOp.h (n - 1)]
                      ++ ((List.range n).map GateOp.x)
                      ++ ((List.range n).map GateOp.h)))).flatten
              ++ measureBlock A n)
      ∧ (groverGates A n iters a m).countP (isMcxOp A) = iters * (m.length + 1) :=
  ⟨rfl, countP_mcx_gates n iters a m⟩

/-- C8: the built circuit ends with exactly the `n` measurement
operations, mapping quantum bit `i` to classical bit `i` in ascending
qubit order, and no operation before that final measurement segment is a
measurement (so no gate operation follows any measurement). -/
theorem c8_measurements_last (A : Type) (n iters : ℕ) (a : A) (m : List ℕ) :
    groverGates A n iters a m
      = (GateOp.init a (List.range n)
            :: (List.replicate iters (iterBlock A n m)).flatten)
          ++ (List.range n).map (fun i => GateOp.measure i i)
      ∧ (GateOp.init a (List.range n)
          :: (List.replicate iters (iterBlock A n m)).flatten).countP (isMeasureOp A)
          = 0 :=
  ⟨rfl, countP_measure_body n iters a m⟩

/-- C9, counterexample: duplicates in the marked input DO change the
circuit: `[0, 0]` and `[0]` describe the same set `{0}`, but
`len(marked_indices)` counts duplicates, so the iteration count is 17
versus 25, and each iteration applies the oracle block of target 0 twice
versus once; the built circuits differ. -/
theorem c9_counterexample :
    build_grover_circuit Unit () [0, 0] ≠ build_grover_circuit Unit () [0] := by
  unfold build_grover_circuit
  rw [show ([0, 0] : List ℕ).length = 2 from rfl,
    show ([0] : List ℕ).length = 1 from rfl, iter_10_2, iter_10_1,
    if_pos (by decide :
      (groverGates Unit 10 17 () [0, 0]).all (gateInBounds Unit 10) = true),
    if_pos (by decide :
      (groverGates Unit 10 25 () [0]).all (gateInBounds Unit 10) = true)]
  intro h
  exact absurd (congrArg Circuit.gates (Except.ok.inj h)) (by decide)

/-- C9, amended: duplicate marked entries have a semantic effect: the
builder treats the input as an ordered sequence, emits one oracle block
per occurrence inside every iteration, and counts duplicates in the `M`
of the iteration-count formula, so building with duplicates generally
differs from building with the deduplicated set. -/
theorem c9_duplicates_add_oracle_blocks (A : Type) (n t : ℕ) (rest : List ℕ) :
    iterBlock A n (t :: t :: rest)
      = oracleBlock A n t
          ++ (oracleBlock A n t
              ++ ((rest.map (oracleBlock A n)).flatten ++ diffusionBlock A n))
      ∧ (iterBlock A n (t :: t :: rest)).countP (isMcxOp A) = rest.length + 3 := by
  constructor
  · simp [iterBlock, List.append_assoc]
  · rw [countP_mcx_iter]
    simp only [List.length_cons]

/-- C10: `get_initial_state_and_oracle` returns exactly `2^10 = 1024`
amplitudes, each exactly `1/32` (`sqrt 1024 = 32` exactly), whose
squares sum exactly to 1, together with the register size 10 and the
marked list `[0, 1, ..., 49]`, every element of which is below
`2^10`. -/
theorem c10_initial_state :
    get_initial_state_and_oracle.1 = List.replicate 1024 ((1 : ℝ) / 32)
      ∧ get_initial_state_and_oracle.1.length = 1024
      ∧ (get_initial_state_and_oracle.1.map (fun a => a ^ 2)).sum = 1
      ∧ get_initial_state_and_oracle.2.1 = 10
      ∧ get_initial_state_and_oracle.2.2 = List.range 50
      ∧ (get_initial_state_and_oracle.2.2.all fun i => decide (i < 2 ^ 10)) = true := by
  have hsqrt : Real.sqrt (((2 ^ 10 : ℕ) : ℝ)) = 32 := by
    rw [show (((2 ^ 10 : ℕ) : ℝ)) = 1024 by norm_num]
    exact sqrt1024_eq
  have hamp : get_initial_state_and_oracle.1 = List.replicate 1024 ((1 : ℝ) / 32) := by
    have h0 : get_initial_state_and_oracle.1
        = List.replicate (2 ^ 10) (1 / Real.sqrt (((2 ^ 10 : ℕ) : ℝ))) := rfl
    rw [h0, hsqrt]
    norm_num
  refine ⟨hamp, ?_, ?_, rfl, rfl, by decide⟩
  · rw [hamp, List.length_replicate]
  · rw [hamp, List.map_replicate, List.sum_replicate]
    norm_num

end Experimento
